import Mathlib

/-!
Shallow embedding of the Pokenator question engine
(src/pokenator/models.py, class QuestionGenerator and its helpers).

Entities are records produced by the preprocessing pass
(preprocess_pokemon_dataset): the derived fields visual_primary_color,
height_category and weight_category are always present after
preprocessing (defaulting to "unknown"), while the can_evolve key is
added only when the raw record declared an evolution chain, so it is
modelled as an Option Bool (Python dict.get with and without a default
is mirrored by Option.getD and by direct Option comparison).

Question values are Python objects of heterogeneous type (type names and
colours are strings, evolution values are booleans, the error outcome
carries None), so they are embedded as a tagged sum Val.

Numbers are embedded as rationals: every quantity the engine computes
(counts, ratios, scores) is an exact small rational, and the claims are
about the mathematical formula, not binary floating point rounding.
-/

namespace Pokenator

/-- Tagged question values: Python strings, booleans, or None. -/
inductive Val where
  | str (s : String)
  | bool (b : Bool)
  | none
  deriving DecidableEq

/-- Entity record after preprocessing (models.py, preprocess_pokemon_dataset). -/
structure Pokemon where
  id : Int
  nom : String
  types : List String
  visual_primary_color : String
  height_category : String
  weight_category : String
  can_evolve : Option Bool
  deriving DecidableEq

/-- Height brackets from language.py (HEIGHT_BRACKETS). -/
def HEIGHT_SMALL : ℚ := 7/10
def HEIGHT_MEDIUM : ℚ := 3/2
/-- Weight brackets from language.py (WEIGHT_BRACKETS). -/
def WEIGHT_LIGHT : ℚ := 99/10
def WEIGHT_MEDIUM : ℚ := 225/4

/-- models.py get_height_category. -/
def get_height_category (height : ℚ) : String :=
  if height ≤ HEIGHT_SMALL then "small"
  else if height ≤ HEIGHT_MEDIUM then "medium"
  else "large"

/-- models.py get_weight_category. -/
def get_weight_category (weight : ℚ) : String :=
  if weight ≤ WEIGHT_LIGHT then "light"
  else if weight ≤ WEIGHT_MEDIUM then "medium"
  else "heavy"

/-- Python list.index: position of the first occurrence, and the
ValueError raised on a missing element is embedded as Option.none. -/
def listIndex (a : Int) : List Int → Option ℕ
  | [] => Option.none
  | b :: l => if b = a then some 0 else (listIndex a l).map (· + 1)

/-- models.py can_evolve: an empty (falsy) chain yields False; otherwise
the position of the id is looked up with list.index, whose ValueError
(id absent) is caught and turned into False; a found position is compared
with the last position of the chain. -/
def can_evolve (evolution : List Int) (id : Int) : Bool :=
  if evolution.isEmpty then false
  else
    match listIndex id evolution with
    | some position => decide (position < evolution.length - 1)
    | Option.none => false

/-- models.py / language.py normalize_letter: NFKD decomposition, ASCII
re-encoding with errors ignored, then lowercasing.  Spelled out for the
characters occurring in the dataset names: accented latin letters fold to
their base letter, other non-ASCII characters are dropped. -/
def normalize_letter (c : Char) : String :=
  let folded : List Char :=
    if c ∈ ['é', 'è', 'ê', 'ë', 'É', 'È', 'Ê', 'Ë'] then ['e']
    else if c ∈ ['à', 'â', 'ä', 'À', 'Â', 'Ä'] then ['a']
    else if c ∈ ['î', 'ï', 'Î', 'Ï'] then ['i']
    else if c ∈ ['ô', 'ö', 'Ô', 'Ö'] then ['o']
    else if c ∈ ['ù', 'û', 'ü', 'Ù', 'Û', 'Ü'] then ['u']
    else if c ∈ ['ç', 'Ç'] then ['c']
    else if c.toNat < 128 then [c]
    else []
  String.mk (folded.map Char.toLower)

/-- Accumulator pass recording already seen values, so that Counter key
order (first-occurrence order of Python dict insertion) is reproduced. -/
def firstOccsAux {α : Type} [DecidableEq α] (seen : List α) : List α → List α
  | [] => []
  | a :: l => if a ∈ seen then firstOccsAux seen l else a :: firstOccsAux (a :: seen) l

/-- Distinct values of a list in first-occurrence order. -/
def firstOccs {α : Type} [DecidableEq α] (l : List α) : List α :=
  firstOccsAux [] l

/-- Embedding of a Python collections.Counter built from a value stream:
association list from each distinct value (in first-occurrence order) to
its number of occurrences. -/
def mkDist {α : Type} [DecidableEq α] (vals : List α) : List (α × ℕ) :=
  (firstOccs vals).map (fun v => (v, vals.count v))

/-- Counter lookup: 0 for a missing key, like Python Counter indexing. -/
def distLookup {α : Type} [DecidableEq α] (d : List (α × ℕ)) (v : α) : ℕ :=
  match d.find? (fun e => decide (e.1 = v)) with
  | some e => e.2
  | Option.none => 0

/-- Value stream of get_type_distribution: every type of every entity
(multi-valued, one contribution per held type), tagged as strings. -/
def typeValsV (s : List Pokemon) : List Val :=
  (s.flatMap (fun p => p.types)).map Val.str

/-- Value stream of get_visual_attribute_distribution for primary_color:
the visual_primary_color fields, unknown excluded. -/
def colorValsV (s : List Pokemon) : List Val :=
  ((s.map (fun p => p.visual_primary_color)).filter (fun c => decide (c ≠ "unknown"))).map Val.str

/-- Value stream of get_height_distribution: height categories, unknown excluded. -/
def heightValsV (s : List Pokemon) : List Val :=
  ((s.map (fun p => p.height_category)).filter (fun c => decide (c ≠ "unknown"))).map Val.str

/-- Value stream of get_weight_distribution: weight categories, unknown excluded. -/
def weightValsV (s : List Pokemon) : List Val :=
  ((s.map (fun p => p.weight_category)).filter (fun c => decide (c ≠ "unknown"))).map Val.str

/-- Value stream of get_evolution_distribution: the can_evolve flags with
Python get default False. -/
def evolValsV (s : List Pokemon) : List Val :=
  s.map (fun p => Val.bool (p.can_evolve.getD false))

/-- models.py QuestionGenerator.get_type_distribution. -/
def get_type_distribution (s : List Pokemon) : List (Val × ℕ) := mkDist (typeValsV s)

/-- models.py QuestionGenerator.get_visual_attribute_distribution (primary_color). -/
def get_visual_attribute_distribution (s : List Pokemon) : List (Val × ℕ) := mkDist (colorValsV s)

/-- models.py QuestionGenerator.get_height_distribution. -/
def get_height_distribution (s : List Pokemon) : List (Val × ℕ) := mkDist (heightValsV s)

/-- models.py QuestionGenerator.get_weight_distribution. -/
def get_weight_distribution (s : List Pokemon) : List (Val × ℕ) := mkDist (weightValsV s)

/-- models.py QuestionGenerator.get_evolution_distribution. -/
def get_evolution_distribution (s : List Pokemon) : List (Val × ℕ) := mkDist (evolValsV s)

/-- The distributions dict built at the top of evaluate_questions, in its
insertion order. -/
def distributions (s : List Pokemon) : List (String × List (Val × ℕ)) :=
  [("type", get_type_distribution s),
   ("primary_color", get_visual_attribute_distribution s),
   ("height_category", get_height_distribution s),
   ("weight_category", get_weight_distribution s),
   ("can_evolve", get_evolution_distribution s)]

/-- The fixed attribute registry (the keys of the distributions dict). -/
def REGISTRY : List String :=
  ["type", "primary_color", "height_category", "weight_category", "can_evolve"]

/-- Python equality of an optional boolean (dict.get with no default)
against a question value; None equals only None, a boolean only the same
boolean. -/
def pyGetEq (o : Option Bool) (v : Val) : Bool :=
  match o, v with
  | some b, Val.bool c => b == c
  | Option.none, Val.none => true
  | _, _ => false

/-- Scoring formula of calculate_question_score: yes_ratio is the yes
percentage, the score is the absolute distance of yes_ratio/100 from 0.5. -/
def calcScore (yes_count total : ℕ) : ℚ :=
  let yes_ratio : ℚ := (yes_count : ℚ) / (total : ℚ) * 100
  |1/2 - yes_ratio / 100|

/-- models.py QuestionGenerator.calculate_question_score.  The can_evolve
branch recounts matching entities with dict.get without a default; the
other branches look the value up in the matching distribution. -/
def calculate_question_score (attr : String) (value : Val) (pokemon_set : List Pokemon) : ℚ :=
  if attr = "can_evolve" then
    calcScore ((pokemon_set.filter (fun p => pyGetEq p.can_evolve value)).length) pokemon_set.length
  else
    let yes_count : ℕ :=
      if attr = "type" then distLookup (get_type_distribution pokemon_set) value
      else if attr = "primary_color" then
        distLookup (get_visual_attribute_distribution pokemon_set) value
      else if attr = "height_category" then
        distLookup (get_height_distribution pokemon_set) value
      else if attr = "weight_category" then
        distLookup (get_weight_distribution pokemon_set) value
      else 0
    calcScore yes_count pokemon_set.length

/-- The medium-bucket skip of evaluate_questions: the medium value of the
height and weight categories is never asked about. -/
def isMediumSkip (attr : String) (value : Val) : Bool :=
  (decide (attr = "height_category") && decide (value = Val.str "medium")) ||
  (decide (attr = "weight_category") && decide (value = Val.str "medium"))

/-- Stable insertion of a scored question into an already sorted list:
placed before the first entry of strictly larger or equal score. -/
def insertByScore (q : ℚ × (String × Val)) :
    List (ℚ × (String × Val)) → List (ℚ × (String × Val))
  | [] => [q]
  | r :: rs => if q.1 ≤ r.1 then q :: r :: rs else r :: insertByScore q rs

/-- Stable ascending sort by score, the semantics of the final
sorted(questions, key) call of evaluate_questions (Python sorting is
stable, and any two stable sorts agree). -/
def sortByScore : List (ℚ × (String × Val)) → List (ℚ × (String × Val))
  | [] => []
  | q :: qs => insertByScore q (sortByScore qs)

/-- models.py QuestionGenerator.evaluate_questions: build the five
distributions, keep those with at least two distinct values, generate one
scored candidate per (attribute, value) not already asked and not a
medium bucket, and return the candidates sorted by ascending score.  The
cosmetic question text is not modelled; a candidate is its score and its
(attribute, value) pair. -/
def evaluate_questions (s : List Pokemon) (asked : Finset (String × Val)) :
    List (ℚ × (String × Val)) :=
  let valid := (distributions s).filter (fun ad => decide (1 < ad.2.length))
  let questions := valid.flatMap (fun ad =>
    (ad.2.filter (fun vc =>
        !(decide ((ad.1, vc.1) ∈ asked)) && !(isMediumSkip ad.1 vc.1))).map
      (fun vc => (calculate_question_score ad.1 vc.1 s, (ad.1, vc.1))))
  sortByScore questions

/-- models.py QuestionGenerator.generate_question: error outcome on an
empty set, final guess on a singleton, otherwise the best scored question
is returned and recorded in asked_questions, falling back to a final
guess on the first remaining entity when no question exists.  The outcome
is its (attribute, value) pair; the question text is cosmetic. -/
def generate_question (s : List Pokemon) (asked : Finset (String × Val)) :
    (String × Val) × Finset (String × Val) :=
  match s with
  | [] => (("error", Val.none), asked)
  | p :: rest =>
    if rest = [] then (("final_guess", Val.str p.nom), asked)
    else
      match evaluate_questions (p :: rest) asked with
      | [] => (("final_guess", Val.str p.nom), asked)
      | q :: _ => (q.2, insert q.2 asked)

/-- The matches computation inside update_pokemon_set, one branch per
recognized attribute; unrecognized attributes leave matches False. -/
def matchesAttr (attr : String) (value : Val) (p : Pokemon) : Bool :=
  if attr = "type" then
    match value with
    | Val.str t => decide (t ∈ p.types)
    | _ => false
  else if attr = "primary_color" then
    match value with
    | Val.str c => decide (p.visual_primary_color = c)
    | _ => false
  else if attr = "height_category" then
    match value with
    | Val.str c => decide (p.height_category = c)
    | _ => false
  else if attr = "weight_category" then
    match value with
    | Val.str c => decide (p.weight_category = c)
    | _ => false
  else if attr = "can_evolve" then
    let is_final_form := !(p.can_evolve.getD false)
    if value = Val.bool false then is_final_form else !is_final_form
  else if attr = "letter" then
    match value, p.nom.toList with
    | Val.str l, c :: _ => decide (normalize_letter c = l)
    | _, _ => false
  else false

/-- models.py QuestionGenerator.update_pokemon_set: no-op for the
terminal markers, otherwise the set is replaced by the entities whose
matches flag equals the answer, in order. -/
def update_pokemon_set (attr : String) (value : Val) (answer : Bool)
    (s : List Pokemon) : List Pokemon :=
  if attr = "error" ∨ attr = "final_guess" then s
  else s.filter (fun p => matchesAttr attr value p == answer)

/-- models.py QuestionGenerator.get_remaining_count. -/
def get_remaining_count (s : List Pokemon) : ℕ := s.length

/-- models.py QuestionGenerator.get_possible_pokemon. -/
def get_possible_pokemon (s : List Pokemon) : List String := s.map (fun p => p.nom)

/-- Predicate of the answer-application contract, written from the spec
bullet list (section 4.4): category membership for category, field
equality for the unary attributes, and the final-form framing rule for
the progression flag. -/
def specKeep (attr : String) (value : Val) (p : Pokemon) : Bool :=
  if attr = "type" then
    match value with
    | Val.str t => decide (t ∈ p.types)
    | _ => false
  else if attr = "primary_color" then
    match value with
    | Val.str c => decide (p.visual_primary_color = c)
    | _ => false
  else if attr = "height_category" then
    match value with
    | Val.str c => decide (p.height_category = c)
    | _ => false
  else if attr = "weight_category" then
    match value with
    | Val.str c => decide (p.weight_category = c)
    | _ => false
  else if attr = "can_evolve" then
    let is_final := !(p.can_evolve.getD false)
    if value = Val.bool false then is_final else !is_final
  else false

/-- Session state of one game: the Candidate Set (current_pokemon_set)
and the Asked-Set (asked_questions). -/
structure GameState where
  current : List Pokemon
  asked : Finset (String × Val)

/-- Game start (QuestionGenerator.__init__): the Candidate Set is the
whole catalog and no question has been asked. -/
def initState (catalog : List Pokemon) : GameState :=
  { current := catalog, asked := ∅ }

/-- One turn of the hosting game loop: generate_question issues an
outcome (recording a real question in the Asked-Set), then the caller
applies its boolean answer with update_pokemon_set, which is a no-op for
the two terminal markers. -/
def step (st : GameState) (answer : Bool) : (String × Val) × GameState :=
  let r := generate_question st.current st.asked
  (r.1, { current := update_pokemon_set r.1.1 r.1.2 answer st.current, asked := r.2 })

/-- Session state before turn n, the answers being supplied by the
stream ans. -/
def stateAt (catalog : List Pokemon) (ans : ℕ → Bool) : ℕ → GameState
  | 0 => initState catalog
  | n + 1 => (step (stateAt catalog ans n) (ans n)).2

/-- Outcome issued at turn n (0-indexed). -/
def outcomeAt (catalog : List Pokemon) (ans : ℕ → Bool) (n : ℕ) : String × Val :=
  (step (stateAt catalog ans n) (ans n)).1

/-- Terminal outcomes: the final guess and the error marker. -/
def isTerminal (q : String × Val) : Bool :=
  q.1 == "error" || q.1 == "final_guess"

/-- All (attribute, value) pairs of the distributions over a set, as a
list. -/
def pairsOfList (s : List Pokemon) : List (String × Val) :=
  (distributions s).flatMap (fun ad => ad.2.map (fun vc => (ad.1, vc.1)))

/-- The distinct (attribute, value) pairs occurring over a catalog. -/
def catalogPairs (catalog : List Pokemon) : Finset (String × Val) :=
  (pairsOfList catalog).toFinset

/-- Concrete witness entities: three entities differing only in type. -/
def wA : Pokemon :=
  { id := 1, nom := "A", types := ["fire"], visual_primary_color := "unknown",
    height_category := "small", weight_category := "light", can_evolve := some false }

def wB : Pokemon :=
  { id := 2, nom := "B", types := ["water"], visual_primary_color := "unknown",
    height_category := "small", weight_category := "light", can_evolve := some false }

def wC : Pokemon :=
  { id := 3, nom := "C", types := ["grass"], visual_primary_color := "unknown",
    height_category := "small", weight_category := "light", can_evolve := some false }

/-- Concrete witness catalog. -/
def wCatalog : List Pokemon := [wA, wB, wC]

/-- Concrete witness answer stream: every answer is no. -/
def wAns : ℕ → Bool := fun _ => false

/-- Second witness pair of entities, differing only in height, so that
exactly one candidate question (height small, the medium bucket being
skipped) exists on the first turn. -/
def w2A : Pokemon :=
  { id := 4, nom := "D", types := ["fire"], visual_primary_color := "unknown",
    height_category := "small", weight_category := "light", can_evolve := some false }

def w2B : Pokemon :=
  { id := 5, nom := "E", types := ["fire"], visual_primary_color := "unknown",
    height_category := "medium", weight_category := "light", can_evolve := some false }

/-- Second witness catalog. -/
def w2Catalog : List Pokemon := [w2A, w2B]

/-! Helper lemmas. -/

theorem mem_firstOccsAux {α : Type} [DecidableEq α] (v : α) :
    ∀ (l seen : List α), v ∈ firstOccsAux seen l ↔ v ∈ l ∧ v ∉ seen := by
  intro l
  induction l with
  | nil => intro seen; simp [firstOccsAux]
  | cons a l ih =>
    intro seen
    by_cases ha : a ∈ seen <;> by_cases hva : v = a
    · subst hva; simp [firstOccsAux, if_pos ha, ih, ha]
    · simp [firstOccsAux, if_pos ha, ih, hva]
    · subst hva; simp [firstOccsAux, if_neg ha, ih, ha]
    · simp [firstOccsAux, if_neg ha, ih, hva]

theorem mem_firstOccs {α : Type} [DecidableEq α] {v : α} {l : List α} :
    v ∈ firstOccs l ↔ v ∈ l := by
  simpa [firstOccs] using mem_firstOccsAux v l []

theorem mem_mkDist {α : Type} [DecidableEq α] {v : α} {c : ℕ} {l : List α} :
    (v, c) ∈ mkDist l ↔ v ∈ l ∧ c = l.count v := by
  constructor
  · intro h
    obtain ⟨u, hu, he⟩ := List.mem_map.1 h
    obtain ⟨h1, h2⟩ := Prod.mk.injEq .. ▸ he
    exact ⟨h1 ▸ mem_firstOccs.1 hu, h1 ▸ h2.symm⟩
  · rintro ⟨hv, rfl⟩
    exact List.mem_map.2 ⟨v, mem_firstOccs.2 hv, rfl⟩

theorem distLookup_mkDist {α : Type} [DecidableEq α] (l : List α) (v : α) :
    distLookup (mkDist l) v = l.count v := by
  rcases h : (mkDist l).find? (fun e => decide (e.1 = v)) with _ | e
  · unfold distLookup
    rw [h]
    rw [List.find?_eq_none] at h
    by_cases hv : v ∈ l
    · exact absurd (by simp) (h (v, l.count v) (mem_mkDist.2 ⟨hv, rfl⟩))
    · simp [List.count_eq_zero.2 hv]
  · have hp : e.1 = v := by simpa using List.find?_some h
    have hm := List.mem_of_find?_eq_some h
    unfold distLookup
    rw [h]
    rcases e with ⟨u, c⟩
    obtain ⟨_, hc⟩ := mem_mkDist.1 hm
    exact hp ▸ hc

theorem listIndex_isSome {a : Int} : ∀ {l : List Int}, a ∈ l → ∃ i, listIndex a l = some i := by
  intro l
  induction l with
  | nil => simp
  | cons b l ih =>
    intro h
    by_cases hb : b = a
    · exact ⟨0, by simp [listIndex, hb]⟩
    · rcases ih (by rcases List.mem_cons.1 h with h | h; exact absurd h.symm hb; exact h) with ⟨i, hi⟩
      exact ⟨i + 1, by simp [listIndex, hb, hi]⟩

theorem listIndex_eq_none {a : Int} : ∀ {l : List Int}, a ∉ l → listIndex a l = Option.none := by
  intro l
  induction l with
  | nil => simp [listIndex]
  | cons b l ih =>
    intro h
    have hb : ¬b = a := fun hba => h (hba ▸ List.mem_cons_self b l)
    simp [listIndex, hb, ih (fun hm => h (List.mem_cons_of_mem b hm))]

theorem listIndex_lt_length {a : Int} :
    ∀ {l : List Int} {i : ℕ}, listIndex a l = some i → i < l.length := by
  intro l
  induction l with
  | nil => simp [listIndex]
  | cons b l ih =>
    intro i h
    simp only [listIndex] at h
    by_cases hb : b = a
    · rw [if_pos hb] at h
      have h0 : i = 0 := by
        injection h with h0
        omega
      simp only [List.length_cons]
      omega
    · rw [if_neg hb] at h
      rcases hj : listIndex a l with _ | j
      · rw [hj] at h; simp at h
      · rw [hj] at h
        simp at h
        have hji := ih hj
        simp only [List.length_cons]
        omega

/-! Claim theorems. -/

/-- C1: for every entity and every answer application on the can_evolve
attribute with boolean question value v and answer a, the entity is kept
by update_pokemon_set exactly when the final-form framing (is_final for
value False, its negation otherwise) equals the answer, where is_final
negates the derived progression flag. -/
theorem c1 (s : List Pokemon) (p : Pokemon) (v a : Bool) (hp : p ∈ s) :
    p ∈ update_pokemon_set "can_evolve" (Val.bool v) a s ↔
      (if v = false then !(p.can_evolve.getD false) else !(!(p.can_evolve.getD false))) = a := by
  unfold update_pokemon_set
  rw [if_neg (by decide)]
  rw [List.mem_filter]
  simp [matchesAttr, hp]

/-- C1 witness: a non-evolving entity is kept by a yes answer to the
final-form framing (value False). -/
theorem c1_witness : wA ∈ update_pokemon_set "can_evolve" (Val.bool false) true wCatalog :=
  (c1 wCatalog wA false true (by decide)).2 (by decide)

/-- C2: the derived progression flag is false for an empty chain and for
a chain not containing the id (without raising), and for an id at
position i of its chain it is true exactly when that position is not the
last one. -/
theorem c2 (chain : List Int) (id : Int) :
    can_evolve [] id = false ∧
    (id ∉ chain → can_evolve chain id = false) ∧
    (∀ i, listIndex id chain = some i →
      (can_evolve chain id = true ↔ i ≠ chain.length - 1)) := by
  refine ⟨rfl, ?_, ?_⟩
  · intro h
    unfold can_evolve
    rcases chain with _ | ⟨b, l⟩
    · rfl
    · rw [if_neg (by simp)]
      rw [listIndex_eq_none h]
  · intro i hi
    have hmem : chain ≠ [] := by
      rintro rfl
      simp [listIndex] at hi
    have hlt : i < chain.length := listIndex_lt_length hi
    unfold can_evolve
    rw [if_neg (by simpa using hmem), hi]
    simp only [decide_eq_true_eq]
    omega

/-- C2 witness: in the chain 1, 2 the id 1 sits at position 0 and can
evolve, while the absent id 3 cannot. -/
theorem c2_witness : can_evolve [1, 2] 1 = true ∧ can_evolve [1, 2] 3 = false :=
  ⟨((c2 [1, 2] 1).2.2 0 (by decide)).2 (by decide), (c2 [1, 2] 3).2.1 (by decide)⟩

/-- C4: the question score equals the absolute distance of the yes ratio
from one half, lies between 0 and one half, and vanishes exactly on a
perfect 50/50 split. -/
theorem c4 (yes_count total : ℕ) (h1 : yes_count ≤ total) (h2 : 0 < total) :
    calcScore yes_count total = |1/2 - (yes_count : ℚ) / total| ∧
    0 ≤ calcScore yes_count total ∧
    calcScore yes_count total ≤ 1/2 ∧
    (calcScore yes_count total = 0 ↔ (yes_count : ℚ) / total = 1/2) := by
  have htot : (0 : ℚ) < total := by exact_mod_cast h2
  have hform : calcScore yes_count total = |1/2 - (yes_count : ℚ) / total| := by
    unfold calcScore
    ring_nf
  have hr0 : (0 : ℚ) ≤ (yes_count : ℚ) / total := by positivity
  have hr1 : (yes_count : ℚ) / total ≤ 1 := by
    rw [div_le_one htot]
    exact_mod_cast h1
  refine ⟨hform, hform ▸ abs_nonneg _, ?_, ?_⟩
  · rw [hform]
    rw [abs_le]
    constructor <;> linarith
  · rw [hform, abs_eq_zero, sub_eq_zero]
    exact eq_comm

/-- C4 witness: one yes among two candidates scores 0, within bounds. -/
theorem c4_witness : 0 ≤ calcScore 1 2 ∧ calcScore 1 2 ≤ 1/2 ∧ calcScore 1 2 = 0 :=
  ⟨(c4 1 2 (by norm_num) (by norm_num)).2.1,
   (c4 1 2 (by norm_num) (by norm_num)).2.2.1,
   ((c4 1 2 (by norm_num) (by norm_num)).2.2.2).2 (by norm_num)⟩

/-- C8: on an empty Candidate Set generate_question returns the error
outcome (totally, raising nothing) and the remaining count is 0. -/
theorem c8 (asked : Finset (String × Val)) :
    generate_question [] asked = (("error", Val.none), asked) ∧
    get_remaining_count ([] : List Pokemon) = 0 :=
  ⟨rfl, rfl⟩

/-- C10: for an attribute handled by no filter branch and distinct from
the terminal markers, update_pokemon_set never raises: a yes answer
empties the Candidate Set and a no answer leaves it unchanged. -/
theorem c10 (s : List Pokemon) (attr : String) (v : Val)
    (h : attr ∉ (["error", "final_guess", "type", "primary_color", "height_category",
      "weight_category", "can_evolve", "letter"] : List String)) :
    update_pokemon_set attr v true s = [] ∧ update_pokemon_set attr v false s = s := by
  simp only [List.mem_cons, List.not_mem_nil, or_false, not_or] at h
  obtain ⟨h1, h2, h3, h4, h5, h6, h7, h8⟩ := h
  have hm : ∀ p, matchesAttr attr v p = false := by
    intro p
    simp [matchesAttr, h3, h4, h5, h6, h7, h8]
  unfold update_pokemon_set
  rw [if_neg (by simp [h1, h2])]
  constructor
  · simp [hm]
  · simp [hm]

/-- C10 witness: the unhandled attribute foo filters everything on yes
and nothing on no. -/
theorem c10_witness :
    update_pokemon_set "foo" Val.none true wCatalog = [] ∧
    update_pokemon_set "foo" Val.none false wCatalog = wCatalog :=
  c10 wCatalog "foo" Val.none (by decide)

theorem matchesAttr_eq_specKeep {attr : String} (h : attr ∈ REGISTRY) (v : Val) (p : Pokemon) :
    matchesAttr attr v p = specKeep attr v p := by
  simp only [REGISTRY, List.mem_cons, List.not_mem_nil, or_false] at h
  rcases h with h | h | h | h | h <;> subst h <;> rfl

theorem registry_not_terminal {attr : String} (h : attr ∈ REGISTRY) :
    ¬(attr = "error" ∨ attr = "final_guess") := by
  simp only [REGISTRY, List.mem_cons, List.not_mem_nil, or_false] at h
  rcases h with h | h | h | h | h <;> subst h <;> decide

/-- C3: for a registry attribute, applying an answer replaces the
Candidate Set by the subsequence of entities whose predicate value
equals the answer, preserving relative order (an order-preserving filter
and hence a sublist), and every survivor matches the answer. -/
theorem c3 (s : List Pokemon) (attr : String) (v : Val) (a : Bool) (h : attr ∈ REGISTRY) :
    update_pokemon_set attr v a s = s.filter (fun p => specKeep attr v p == a) ∧
    (update_pokemon_set attr v a s).Sublist s ∧
    ∀ p ∈ update_pokemon_set attr v a s, specKeep attr v p = a := by
  have hupd : update_pokemon_set attr v a s = s.filter (fun p => matchesAttr attr v p == a) := by
    unfold update_pokemon_set
    rw [if_neg (registry_not_terminal h)]
  have hflt : s.filter (fun p => matchesAttr attr v p == a) =
      s.filter (fun p => specKeep attr v p == a) := by
    apply List.filter_congr
    intro p _
    rw [matchesAttr_eq_specKeep h]
  refine ⟨hupd.trans hflt, hupd ▸ List.filter_sublist s, ?_⟩
  intro p hp
  rw [hupd, hflt] at hp
  simpa using (List.mem_filter.1 hp).2

/-- C3 witness: filtering the witness catalog on type fire with a yes
answer keeps exactly the fire entity, a sublist matching the predicate. -/
theorem c3_witness :
    update_pokemon_set "type" (Val.str "fire") true wCatalog =
      wCatalog.filter (fun p => specKeep "type" (Val.str "fire") p == true) ∧
    (update_pokemon_set "type" (Val.str "fire") true wCatalog).Sublist wCatalog :=
  ⟨(c3 wCatalog "type" (Val.str "fire") true (by decide)).1,
   (c3 wCatalog "type" (Val.str "fire") true (by decide)).2.1⟩

/-- C7: the distributions computed by the question-selection step (the
distributions dict of evaluate_questions, consulted by generate_question
on every turn with at least two candidates) cover exactly the five
registry attributes, and each one is the frequency distribution of the
observed values over the current Candidate Set: one contribution per
held type for the multi-valued type attribute, one per entity with a
non-unknown value for colour, height and weight, and one per entity for
the boolean evolution flag. -/
theorem c7 (s : List Pokemon) :
    (distributions s).map Prod.fst = REGISTRY ∧
    (∀ t : String, distLookup (get_type_distribution s) (Val.str t) =
      ((s.map (fun p => p.types.count t)).sum)) ∧
    (∀ c : String, distLookup (get_visual_attribute_distribution s) (Val.str c) =
      if c = "unknown" then 0 else (s.map (fun p => p.visual_primary_color)).count c) ∧
    (∀ c : String, distLookup (get_height_distribution s) (Val.str c) =
      if c = "unknown" then 0 else (s.map (fun p => p.height_category)).count c) ∧
    (∀ c : String, distLookup (get_weight_distribution s) (Val.str c) =
      if c = "unknown" then 0 else (s.map (fun p => p.weight_category)).count c) ∧
    (∀ b : Bool, distLookup (get_evolution_distribution s) (Val.bool b) =
      (s.map (fun p => p.can_evolve.getD false)).count b) := by
  have hstr : Function.Injective Val.str := fun x y hxy => by
    cases hxy
    rfl
  have hbool : Function.Injective Val.bool := fun x y hxy => by
    cases hxy
    rfl
  have hunary : ∀ (f : Pokemon → String) (c : String),
      ((s.map f).filter (fun x => decide (x ≠ "unknown"))).count c =
        if c = "unknown" then 0 else (s.map f).count c := by
    intro f c
    by_cases hc : c = "unknown"
    · subst hc
      rw [if_pos rfl]
      rw [List.count_eq_zero]
      intro hmem
      have : ¬("unknown" : String) = "unknown" := by simpa using (List.mem_filter.1 hmem).2
      exact this rfl
    · rw [if_neg hc]
      exact List.count_filter (by simpa using hc)
  refine ⟨rfl, ?_, ?_, ?_, ?_, ?_⟩
  · intro t
    rw [get_type_distribution, distLookup_mkDist, typeValsV,
      List.count_map_of_injective _ _ hstr, List.count_flatMap]
    rfl
  · intro c
    rw [get_visual_attribute_distribution, distLookup_mkDist, colorValsV,
      List.count_map_of_injective _ _ hstr]
    exact hunary _ c
  · intro c
    rw [get_height_distribution, distLookup_mkDist, heightValsV,
      List.count_map_of_injective _ _ hstr]
    exact hunary _ c
  · intro c
    rw [get_weight_distribution, distLookup_mkDist, weightValsV,
      List.count_map_of_injective _ _ hstr]
    exact hunary _ c
  · intro b
    rw [get_evolution_distribution, distLookup_mkDist, evolValsV]
    rw [show s.map (fun p => Val.bool (p.can_evolve.getD false)) =
      (s.map (fun p => p.can_evolve.getD false)).map Val.bool from (List.map_map ..).symm]
    exact List.count_map_of_injective _ _ hbool b

/-! Lemmas about the per-turn machinery. -/

theorem mem_insertByScore {q r : ℚ × (String × Val)} :
    ∀ {l : List (ℚ × (String × Val))}, r ∈ insertByScore q l ↔ r = q ∨ r ∈ l := by
  intro l
  induction l with
  | nil => simp [insertByScore]
  | cons x xs ih =>
    simp only [insertByScore]
    by_cases h : q.1 ≤ x.1
    · rw [if_pos h]
      simp [List.mem_cons]
    · rw [if_neg h]
      simp only [List.mem_cons, ih]
      tauto

theorem mem_sortByScore {r : ℚ × (String × Val)} :
    ∀ {l : List (ℚ × (String × Val))}, r ∈ sortByScore l ↔ r ∈ l := by
  intro l
  induction l with
  | nil => simp [sortByScore]
  | cons x xs ih =>
    simp only [sortByScore, mem_insertByScore, List.mem_cons, ih]

theorem mem_evaluate_questions {s : List Pokemon} {asked : Finset (String × Val)}
    {q : ℚ × (String × Val)} (h : q ∈ evaluate_questions s asked) :
    q.2 ∈ pairsOfList s ∧ q.2 ∉ asked := by
  unfold evaluate_questions at h
  rw [mem_sortByScore] at h
  obtain ⟨ad, had, hq⟩ := List.mem_flatMap.1 h
  obtain ⟨vc, hvc, hqe⟩ := List.mem_map.1 hq
  subst hqe
  have hvc' := List.mem_filter.1 hvc
  have had' := (List.mem_filter.1 had).1
  refine ⟨List.mem_flatMap.2 ⟨ad, had', List.mem_map.2 ⟨vc, hvc'.1, rfl⟩⟩, ?_⟩
  have hb := hvc'.2
  simp only [Bool.and_eq_true, Bool.not_eq_true', decide_eq_false_iff_not] at hb
  exact hb.1

theorem pairs_attr {s : List Pokemon} {q : String × Val} (h : q ∈ pairsOfList s) :
    q.1 ∈ REGISTRY := by
  obtain ⟨ad, had, hq⟩ := List.mem_flatMap.1 h
  obtain ⟨vc, _, hqe⟩ := List.mem_map.1 hq
  subst hqe
  have hmem : ad.1 ∈ (distributions s).map Prod.fst := List.mem_map_of_mem Prod.fst had
  exact (show (distributions s).map Prod.fst = REGISTRY from rfl) ▸ hmem

theorem isTerminal_false_of_registry {q : String × Val} (h : q.1 ∈ REGISTRY) :
    isTerminal q = false := by
  simp only [REGISTRY, List.mem_cons, List.not_mem_nil, or_false] at h
  rcases h with h | h | h | h | h <;> simp [isTerminal, h]

theorem unaryVals_mono {s t : List Pokemon} (f : Pokemon → String)
    (hst : ∀ p, p ∈ s → p ∈ t) {v : Val}
    (h : v ∈ ((s.map f).filter (fun c => decide (c ≠ "unknown"))).map Val.str) :
    v ∈ ((t.map f).filter (fun c => decide (c ≠ "unknown"))).map Val.str := by
  simp only [List.mem_map, List.mem_filter] at h ⊢
  obtain ⟨c, ⟨hc, hcu⟩, rfl⟩ := h
  obtain ⟨p, hp, rfl⟩ := hc
  exact ⟨f p, ⟨⟨p, hst p hp, rfl⟩, hcu⟩, rfl⟩

theorem typeValsV_mono {s t : List Pokemon} (hst : ∀ p, p ∈ s → p ∈ t) {v : Val}
    (h : v ∈ typeValsV s) : v ∈ typeValsV t := by
  simp only [typeValsV, List.mem_map, List.mem_flatMap] at h ⊢
  obtain ⟨tn, ⟨p, hp, htn⟩, rfl⟩ := h
  exact ⟨tn, ⟨p, hst p hp, htn⟩, rfl⟩

theorem evolValsV_mono {s t : List Pokemon} (hst : ∀ p, p ∈ s → p ∈ t) {v : Val}
    (h : v ∈ evolValsV s) : v ∈ evolValsV t := by
  simp only [evolValsV, List.mem_map] at h ⊢
  obtain ⟨p, hp, rfl⟩ := h
  exact ⟨p, hst p hp, rfl⟩

theorem pairsOfList_build {t : List Pokemon} {name : String} {dist : List (Val × ℕ)}
    (hd : (name, dist) ∈ distributions t) {v : Val} {c : ℕ} (hv : (v, c) ∈ dist) :
    (name, v) ∈ pairsOfList t :=
  List.mem_flatMap.2 ⟨(name, dist), hd, List.mem_map.2 ⟨(v, c), hv, rfl⟩⟩

theorem pairsOfList_mono {s t : List Pokemon} (hst : ∀ p, p ∈ s → p ∈ t) :
    ∀ q ∈ pairsOfList s, q ∈ pairsOfList t := by
  intro q hq
  obtain ⟨ad, had, hq'⟩ := List.mem_flatMap.1 hq
  obtain ⟨vc, hvc, hqe⟩ := List.mem_map.1 hq'
  subst hqe
  rcases vc with ⟨v, c⟩
  simp only [distributions, List.mem_cons, List.not_mem_nil, or_false] at had
  rcases had with h | h | h | h | h <;> subst h <;>
    simp only [get_type_distribution, get_visual_attribute_distribution,
      get_height_distribution, get_weight_distribution, get_evolution_distribution] at hvc
  · exact pairsOfList_build (show ("type", get_type_distribution t) ∈ distributions t by
      simp [distributions])
      (mem_mkDist.2 ⟨typeValsV_mono hst (mem_mkDist.1 hvc).1, rfl⟩)
  · exact pairsOfList_build
      (show ("primary_color", get_visual_attribute_distribution t) ∈ distributions t by
        simp [distributions])
      (mem_mkDist.2 ⟨unaryVals_mono _ hst ((mem_mkDist.1 hvc).1 :
        v ∈ colorValsV s), rfl⟩)
  · exact pairsOfList_build
      (show ("height_category", get_height_distribution t) ∈ distributions t by
        simp [distributions])
      (mem_mkDist.2 ⟨unaryVals_mono _ hst ((mem_mkDist.1 hvc).1 :
        v ∈ heightValsV s), rfl⟩)
  · exact pairsOfList_build
      (show ("weight_category", get_weight_distribution t) ∈ distributions t by
        simp [distributions])
      (mem_mkDist.2 ⟨unaryVals_mono _ hst ((mem_mkDist.1 hvc).1 :
        v ∈ weightValsV s), rfl⟩)
  · exact pairsOfList_build
      (show ("can_evolve", get_evolution_distribution t) ∈ distributions t by
        simp [distributions])
      (mem_mkDist.2 ⟨evolValsV_mono hst (mem_mkDist.1 hvc).1, rfl⟩)

theorem exists_match_of_pair {s : List Pokemon} {q : String × Val}
    (h : q ∈ pairsOfList s) : ∃ p ∈ s, matchesAttr q.1 q.2 p = true := by
  obtain ⟨ad, had, hq'⟩ := List.mem_flatMap.1 h
  obtain ⟨vc, hvc, hqe⟩ := List.mem_map.1 hq'
  subst hqe
  rcases vc with ⟨v, c⟩
  simp only [distributions, List.mem_cons, List.not_mem_nil, or_false] at had
  rcases had with h | h | h | h | h <;> subst h <;>
    simp only [get_type_distribution, get_visual_attribute_distribution,
      get_height_distribution, get_weight_distribution, get_evolution_distribution] at hvc
  · have hv : v ∈ typeValsV s := (mem_mkDist.1 hvc).1
    simp only [typeValsV, List.mem_map, List.mem_flatMap] at hv
    obtain ⟨tn, ⟨p, hp, htn⟩, rfl⟩ := hv
    exact ⟨p, hp, by simp [matchesAttr, htn]⟩
  · have hv : v ∈ colorValsV s := (mem_mkDist.1 hvc).1
    simp only [colorValsV, List.mem_map, List.mem_filter] at hv
    obtain ⟨cv, ⟨hc, _⟩, rfl⟩ := hv
    obtain ⟨p, hp, rfl⟩ := hc
    exact ⟨p, hp, by simp [matchesAttr]⟩
  · have hv : v ∈ heightValsV s := (mem_mkDist.1 hvc).1
    simp only [heightValsV, List.mem_map, List.mem_filter] at hv
    obtain ⟨cv, ⟨hc, _⟩, rfl⟩ := hv
    obtain ⟨p, hp, rfl⟩ := hc
    exact ⟨p, hp, by simp [matchesAttr]⟩
  · have hv : v ∈ weightValsV s := (mem_mkDist.1 hvc).1
    simp only [weightValsV, List.mem_map, List.mem_filter] at hv
    obtain ⟨cv, ⟨hc, _⟩, rfl⟩ := hv
    obtain ⟨p, hp, rfl⟩ := hc
    exact ⟨p, hp, by simp [matchesAttr]⟩
  · have hv : v ∈ evolValsV s := (mem_mkDist.1 hvc).1
    simp only [evolValsV, List.mem_map] at hv
    obtain ⟨p, hp, rfl⟩ := hv
    refine ⟨p, hp, ?_⟩
    rcases hfb : p.can_evolve.getD false with _ | _ <;> simp [matchesAttr, hfb]

theorem update_pokemon_set_subset (attr : String) (v : Val) (a : Bool) (s : List Pokemon) :
    ∀ p ∈ update_pokemon_set attr v a s, p ∈ s := by
  intro p hp
  unfold update_pokemon_set at hp
  split at hp
  · exact hp
  · exact List.mem_of_mem_filter hp

/-- Case analysis of one generate_question call: either the outcome is
terminal and the Asked-Set is untouched, or it is a question drawn from
the current distributions, not yet asked, and just recorded. -/
theorem generate_question_spec (s : List Pokemon) (asked : Finset (String × Val)) :
    (isTerminal (generate_question s asked).1 = true ∧
      (generate_question s asked).2 = asked) ∨
    (isTerminal (generate_question s asked).1 = false ∧
      (generate_question s asked).1 ∈ pairsOfList s ∧
      (generate_question s asked).1 ∉ asked ∧
      (generate_question s asked).2 = insert (generate_question s asked).1 asked) := by
  rcases s with _ | ⟨p, rest⟩
  · exact Or.inl ⟨rfl, rfl⟩
  · by_cases hr : rest = []
    · subst hr
      exact Or.inl ⟨rfl, rfl⟩
    · rcases hq : evaluate_questions (p :: rest) asked with _ | ⟨q, qs⟩
      · left
        simp only [generate_question]
        rw [if_neg hr, hq]
        exact ⟨rfl, rfl⟩
      · right
        have hqm : q ∈ evaluate_questions (p :: rest) asked := hq ▸ List.mem_cons_self q qs
        obtain ⟨hpair, hnot⟩ := mem_evaluate_questions hqm
        have hterm : isTerminal q.2 = false := isTerminal_false_of_registry (pairs_attr hpair)
        simp only [generate_question]
        rw [if_neg hr, hq]
        exact ⟨hterm, hpair, hnot, rfl⟩

theorem stateAt_current_subset (catalog : List Pokemon) (ans : ℕ → Bool) :
    ∀ n, ∀ p ∈ (stateAt catalog ans n).current, p ∈ catalog := by
  intro n
  induction n with
  | zero => exact fun p hp => hp
  | succ n ih =>
    intro p hp
    exact ih p (update_pokemon_set_subset _ _ _ _ p hp)

theorem stateAt_asked_subset (catalog : List Pokemon) (ans : ℕ → Bool) :
    ∀ n, (stateAt catalog ans n).asked ⊆ catalogPairs catalog := by
  intro n
  induction n with
  | zero => exact Finset.empty_subset _
  | succ n ih =>
    have hnext : (stateAt catalog ans (n + 1)).asked =
        (generate_question (stateAt catalog ans n).current (stateAt catalog ans n).asked).2 :=
      rfl
    rcases generate_question_spec (stateAt catalog ans n).current
        (stateAt catalog ans n).asked with ⟨_, heq⟩ | ⟨_, hpair, _, heq⟩
    · rw [hnext, heq]
      exact ih
    · rw [hnext, heq]
      rw [Finset.insert_subset_iff]
      refine ⟨?_, ih⟩
      rw [catalogPairs, List.mem_toFinset]
      exact pairsOfList_mono (stateAt_current_subset catalog ans n) _ hpair

theorem outcomeAt_eq (catalog : List Pokemon) (ans : ℕ → Bool) (n : ℕ) :
    outcomeAt catalog ans n =
      (generate_question (stateAt catalog ans n).current (stateAt catalog ans n).asked).1 :=
  rfl

theorem outcome_not_mem {catalog : List Pokemon} {ans : ℕ → Bool} {n : ℕ}
    (h : isTerminal (outcomeAt catalog ans n) = false) :
    outcomeAt catalog ans n ∉ (stateAt catalog ans n).asked := by
  rcases generate_question_spec (stateAt catalog ans n).current
      (stateAt catalog ans n).asked with ⟨hterm, _⟩ | ⟨_, _, hnot, _⟩
  · rw [outcomeAt_eq] at h
    rw [h] at hterm
    exact absurd hterm (by simp)
  · exact hnot

theorem outcome_mem_next {catalog : List Pokemon} {ans : ℕ → Bool} {n : ℕ}
    (h : isTerminal (outcomeAt catalog ans n) = false) :
    outcomeAt catalog ans n ∈ (stateAt catalog ans (n + 1)).asked := by
  have hnext : (stateAt catalog ans (n + 1)).asked =
      (generate_question (stateAt catalog ans n).current (stateAt catalog ans n).asked).2 :=
    rfl
  rcases generate_question_spec (stateAt catalog ans n).current
      (stateAt catalog ans n).asked with ⟨hterm, _⟩ | ⟨_, _, _, heq⟩
  · rw [outcomeAt_eq] at h
    rw [h] at hterm
    exact absurd hterm (by simp)
  · rw [hnext, heq]
    exact Finset.mem_insert_self _ _

theorem stateAt_asked_mono (catalog : List Pokemon) (ans : ℕ → Bool) :
    ∀ m n, m ≤ n → (stateAt catalog ans m).asked ⊆ (stateAt catalog ans n).asked := by
  intro m n hmn
  induction n with
  | zero =>
    rw [Nat.le_zero.1 hmn]
  | succ n ih =>
    rcases Nat.lt_or_ge m (n + 1) with hlt | hge
    · have hsub := ih (Nat.lt_succ_iff.1 hlt)
      have hstep : (stateAt catalog ans n).asked ⊆ (stateAt catalog ans (n + 1)).asked := by
        have hnext : (stateAt catalog ans (n + 1)).asked =
            (generate_question (stateAt catalog ans n).current
              (stateAt catalog ans n).asked).2 := rfl
        rcases generate_question_spec (stateAt catalog ans n).current
            (stateAt catalog ans n).asked with ⟨_, heq⟩ | ⟨_, _, _, heq⟩
        · rw [hnext, heq]
        · rw [hnext, heq]
          exact Finset.subset_insert _ _
      exact hsub.trans hstep
    · rw [Nat.le_antisymm hmn hge]

theorem stateAt_asked_card (catalog : List Pokemon) (ans : ℕ → Bool) :
    ∀ n, (∀ k, k < n → isTerminal (outcomeAt catalog ans k) = false) →
      (stateAt catalog ans n).asked.card = n := by
  intro n
  induction n with
  | zero => intro _; rfl
  | succ n ih =>
    intro hk
    have hn := hk n (Nat.lt_succ_self n)
    have hnext : (stateAt catalog ans (n + 1)).asked =
        (generate_question (stateAt catalog ans n).current (stateAt catalog ans n).asked).2 :=
      rfl
    rcases generate_question_spec (stateAt catalog ans n).current
        (stateAt catalog ans n).asked with ⟨hterm, _⟩ | ⟨_, _, hnot, heq⟩
    · rw [outcomeAt_eq] at hn
      rw [hn] at hterm
      exact absurd hterm (by simp)
    · rw [hnext, heq, Finset.card_insert_of_not_mem hnot,
        ih (fun k hks => hk k (Nat.lt_succ_of_lt hks))]

/-- C5: for every catalog and every answer stream, a terminal outcome
(final guess or error) is reached within D + 1 turns, where D is the
number of distinct (attribute, value) pairs occurring over the catalog
(turn n being 0-indexed, some turn n with n at most D is terminal). -/
theorem c5 (catalog : List Pokemon) (ans : ℕ → Bool) :
    ∃ n, n ≤ (catalogPairs catalog).card ∧ isTerminal (outcomeAt catalog ans n) = true := by
  by_contra hcon
  push_neg at hcon
  have hall : ∀ k, k < (catalogPairs catalog).card + 1 →
      isTerminal (outcomeAt catalog ans k) = false := by
    intro k hk
    have := hcon k (by omega)
    simpa using this
  have hcard := stateAt_asked_card catalog ans ((catalogPairs catalog).card + 1) hall
  have hle := Finset.card_le_card (stateAt_asked_subset catalog ans
    ((catalogPairs catalog).card + 1))
  omega

/-- C6: within one game no (attribute, value) pair is issued as a
question twice: question outcomes of two distinct turns differ. -/
theorem c6 (catalog : List Pokemon) (ans : ℕ → Bool) (m n : ℕ) (hmn : m < n)
    (hm : isTerminal (outcomeAt catalog ans m) = false)
    (hn : isTerminal (outcomeAt catalog ans n) = false) :
    outcomeAt catalog ans m ≠ outcomeAt catalog ans n := by
  intro heq
  have h1 : outcomeAt catalog ans m ∈ (stateAt catalog ans n).asked :=
    stateAt_asked_mono catalog ans (m + 1) n hmn (outcome_mem_next hm)
  exact outcome_not_mem hn (heq ▸ h1)

/-- C9: a yes answer to a just-issued question never empties the
Candidate Set: every issued pair is drawn from the distributions of the
current set, so some current entity matches it. -/
theorem c9 (catalog : List Pokemon) (ans : ℕ → Bool) (n : ℕ)
    (h : isTerminal (outcomeAt catalog ans n) = false) :
    update_pokemon_set (outcomeAt catalog ans n).1 (outcomeAt catalog ans n).2 true
      (stateAt catalog ans n).current ≠ [] := by
  rcases generate_question_spec (stateAt catalog ans n).current
      (stateAt catalog ans n).asked with ⟨hterm, _⟩ | ⟨_, hpair, _, _⟩
  · rw [outcomeAt_eq] at h
    rw [h] at hterm
    exact absurd hterm (by simp)
  · obtain ⟨p, hp, hmatch⟩ := exists_match_of_pair hpair
    have hne := registry_not_terminal (pairs_attr hpair)
    unfold update_pokemon_set
    rw [outcomeAt_eq]
    rw [if_neg hne]
    apply List.ne_nil_of_mem (a := p)
    exact List.mem_filter.2 ⟨hp, by simp [hmatch]⟩

/-! Concrete evaluation of the first two turns over the witness catalog,
staged so that the rational score comparisons are settled by norm_num. -/

theorem wq0 : generate_question wCatalog ∅ =
    (("type", Val.str "fire"), insert ("type", Val.str "fire") ∅) := by
  have hs1 : calculate_question_score "type" (Val.str "fire") wCatalog = 1/6 := by
    have hd : distLookup (get_type_distribution wCatalog) (Val.str "fire") = 1 := by
      rw [get_type_distribution, distLookup_mkDist]
      decide
    simp +decide only [calculate_question_score, hd]
    norm_num [calcScore, wCatalog]
  have hs2 : calculate_question_score "type" (Val.str "water") wCatalog = 1/6 := by
    have hd : distLookup (get_type_distribution wCatalog) (Val.str "water") = 1 := by
      rw [get_type_distribution, distLookup_mkDist]
      decide
    simp +decide only [calculate_question_score, hd]
    norm_num [calcScore, wCatalog]
  have hs3 : calculate_question_score "type" (Val.str "grass") wCatalog = 1/6 := by
    have hd : distLookup (get_type_distribution wCatalog) (Val.str "grass") = 1 := by
      rw [get_type_distribution, distLookup_mkDist]
      decide
    simp +decide only [calculate_question_score, hd]
    norm_num [calcScore, wCatalog]
  have ha : evaluate_questions wCatalog ∅ = sortByScore
      [(calculate_question_score "type" (Val.str "fire") wCatalog, ("type", Val.str "fire")),
       (calculate_question_score "type" (Val.str "water") wCatalog, ("type", Val.str "water")),
       (calculate_question_score "type" (Val.str "grass") wCatalog, ("type", Val.str "grass"))] :=
    rfl
  have he : evaluate_questions wCatalog ∅ =
      [((1 : ℚ)/6, ("type", Val.str "fire")), (1/6, ("type", Val.str "water")),
       (1/6, ("type", Val.str "grass"))] := by
    rw [ha, hs1, hs2, hs3]
    norm_num [sortByScore, insertByScore]
  show generate_question [wA, wB, wC] ∅ = _
  simp only [generate_question]
  rw [if_neg (by decide)]
  rw [show evaluate_questions [wA, wB, wC] ∅ =
    [((1 : ℚ)/6, ("type", Val.str "fire")), (1/6, ("type", Val.str "water")),
     (1/6, ("type", Val.str "grass"))] from he]

theorem ws1 : stateAt wCatalog wAns 1 =
    { current := [wB, wC], asked := insert ("type", Val.str "fire") ∅ } := by
  have h : stateAt wCatalog wAns 1 = (step (initState wCatalog) (wAns 0)).2 := rfl
  rw [h]
  simp only [step]
  rw [show generate_question (initState wCatalog).current (initState wCatalog).asked =
    (("type", Val.str "fire"), insert ("type", Val.str "fire") ∅) from wq0]
  rfl

theorem wq1 : generate_question [wB, wC] (insert ("type", Val.str "fire") ∅) =
    (("type", Val.str "water"),
      insert ("type", Val.str "water") (insert ("type", Val.str "fire") ∅)) := by
  have hs2 : calculate_question_score "type" (Val.str "water") [wB, wC] = 0 := by
    have hd : distLookup (get_type_distribution [wB, wC]) (Val.str "water") = 1 := by
      rw [get_type_distribution, distLookup_mkDist]
      decide
    simp +decide only [calculate_question_score, hd]
    norm_num [calcScore]
  have hs3 : calculate_question_score "type" (Val.str "grass") [wB, wC] = 0 := by
    have hd : distLookup (get_type_distribution [wB, wC]) (Val.str "grass") = 1 := by
      rw [get_type_distribution, distLookup_mkDist]
      decide
    simp +decide only [calculate_question_score, hd]
    norm_num [calcScore]
  have ha : evaluate_questions [wB, wC] (insert ("type", Val.str "fire") ∅) = sortByScore
      [(calculate_question_score "type" (Val.str "water") [wB, wC], ("type", Val.str "water")),
       (calculate_question_score "type" (Val.str "grass") [wB, wC], ("type", Val.str "grass"))] :=
    rfl
  have he : evaluate_questions [wB, wC] (insert ("type", Val.str "fire") ∅) =
      [((0 : ℚ), ("type", Val.str "water")), (0, ("type", Val.str "grass"))] := by
    rw [ha, hs2, hs3]
    norm_num [sortByScore, insertByScore]
  simp only [generate_question]
  rw [if_neg (by decide)]
  rw [he]

theorem wo0 : outcomeAt wCatalog wAns 0 = ("type", Val.str "fire") := by
  have h : outcomeAt wCatalog wAns 0 =
      (generate_question (initState wCatalog).current (initState wCatalog).asked).1 := rfl
  rw [h, show generate_question (initState wCatalog).current (initState wCatalog).asked =
    (("type", Val.str "fire"), insert ("type", Val.str "fire") ∅) from wq0]

theorem wo1 : outcomeAt wCatalog wAns 1 = ("type", Val.str "water") := by
  have h : outcomeAt wCatalog wAns 1 =
      (generate_question (stateAt wCatalog wAns 1).current (stateAt wCatalog wAns 1).asked).1 :=
    rfl
  rw [h, ws1]
  rw [show generate_question
      (GameState.mk [wB, wC] (insert ("type", Val.str "fire") ∅)).current
      (GameState.mk [wB, wC] (insert ("type", Val.str "fire") ∅)).asked =
    (("type", Val.str "water"),
      insert ("type", Val.str "water") (insert ("type", Val.str "fire") ∅)) from wq1]

/-- C6 witness: on the witness catalog the first two turns issue the
distinct questions type fire and type water. -/
theorem c6_witness : outcomeAt wCatalog wAns 0 ≠ outcomeAt wCatalog wAns 1 :=
  c6 wCatalog wAns 0 1 (by omega) (by rw [wo0]; rfl) (by rw [wo1]; rfl)

/-- C9 witness: on the two-entity witness catalog the first turn issues a
question, and a yes answer to it leaves a non-empty Candidate Set. -/
theorem c9_witness :
    update_pokemon_set (outcomeAt w2Catalog wAns 0).1 (outcomeAt w2Catalog wAns 0).2 true
      (stateAt w2Catalog wAns 0).current ≠ [] :=
  c9 w2Catalog wAns 0 (by decide)

end Pokenator
